import Mathlib

/-!
Verification of the tech-stock-tracker core against its specification.

The development shallowly embeds the Python modules:
  * config.py   : `ConfigData`, `appConfig`
  * stock_data.py : `StockInfo`, `fetch_all_stocks`, `fetch_single_stock`,
                    `create_error_stock_info`
  * app.py      : `format_stock_data_for_web`, `sort_stocks`,
                  `start_background_refresh`, `backgroundRefreshLoop`,
                  `fetch_stock_data`
  * utils.py    : `validate_config`, `handle_general_error`

Python floats are modelled as rationals, Python ints as `Int`/`Nat`, a Python
dict as an association list with Python dict insertion semantics
(`dictInsert`: overwriting keeps the original key position, a fresh key is
appended), and a fallible operation as `Except String`.
-/

namespace StockTracker

/-- Embedding of config.py, class Config (the fields the core reads). -/
structure ConfigData where
  SYMBOLS : List String
  COMPANY_NAMES : List (String × String)
  REFRESH_INTERVAL : Int
  PRECISION : Int
  VOLUME_PRECISION : Int
deriving DecidableEq

/-- The concrete configuration shipped in config.py. -/
def appConfig : ConfigData :=
  { SYMBOLS := ["GOOGL", "AMZN", "AAPL", "META", "MSFT", "NVDA", "TSLA", "ORCL", "AVGO"]
    COMPANY_NAMES :=
      [("GOOGL", "Alphabet"), ("AMZN", "Amazon"), ("AAPL", "Apple"),
       ("META", "Meta Platforms"), ("MSFT", "Microsoft"), ("NVDA", "Nvidia"),
       ("TSLA", "Tesla"), ("ORCL", "Oracle"), ("AVGO", "Broadcom")]
    REFRESH_INTERVAL := 60
    PRECISION := 2
    VOLUME_PRECISION := 1 }

/-- Embedding of stock_data.py, dataclass StockInfo. -/
structure StockInfo where
  symbol : String
  company_name : String
  price : ℚ
  change : ℚ
  change_percent : ℚ
  volume : Int
  market_cap : Option ℚ := none
  previous_close : Option ℚ := none
deriving DecidableEq

/-- Embedding of StockDataFetcher._create_error_stock_info: the sentinel Quote
produced for a failed per-symbol fetch. -/
def create_error_stock_info (cfg : ConfigData) (symbol : String) : StockInfo :=
  { symbol := symbol
    company_name := (cfg.COMPANY_NAMES.lookup symbol).getD symbol
    price := 0
    change := 0
    change_percent := 0
    volume := 0
    market_cap := none
    previous_close := some 0 }

/-- Python dict assignment d[k] = v on an association list: an existing key
keeps its position and gets the new value, a fresh key is appended. -/
def dictInsert (d : List (String × StockInfo)) (k : String) (v : StockInfo) :
    List (String × StockInfo) :=
  if d.any fun p => decide (p.1 = k) then
    d.map fun p => if p.1 = k then (k, v) else p
  else
    d ++ [(k, v)]

/-- Embedding of StockDataFetcher.fetch_all_stocks.  The per-symbol outcome of
the gathered tasks (each task either returns a StockInfo or raises) is the
parameter fetchOne; the result-processing loop inserts, for each symbol in
order, either the fetched StockInfo or the sentinel from
_create_error_stock_info.  The function is total: no per-symbol failure
escapes it. -/
def fetch_all_stocks (cfg : ConfigData) (symbols : List String)
    (fetchOne : String → Except String StockInfo) : List (String × StockInfo) :=
  symbols.foldl
    (fun d symbol =>
      dictInsert d symbol
        (match fetchOne symbol with
         | .error _ => create_error_stock_info cfg symbol
         | .ok info => info))
    []

/-- The value stored for one symbol by the result-processing loop of
fetch_all_stocks. -/
def fetchedValue (cfg : ConfigData) (fetchOne : String → Except String StockInfo)
    (symbol : String) : StockInfo :=
  match fetchOne symbol with
  | .error _ => create_error_stock_info cfg symbol
  | .ok info => info

/-- The key list of an embedded dict. -/
def dKeys (d : List (String × StockInfo)) : List String :=
  d.map Prod.fst

/-- One row of the 2-day price history returned by the provider. -/
structure HistRow where
  close : ℚ
  volume : Int
deriving DecidableEq

/-- The raw provider responses consumed by one per-symbol fetch: the history
rows and the info fields the code reads. -/
structure ProviderData where
  hist : List HistRow
  infoPreviousClose : Option ℚ
  infoVolume : Option Int
  infoLongName : Option String
  infoMarketCap : Option ℚ
deriving DecidableEq

/-- Embedding of StockDataFetcher._fetch_single_stock, as a function of the
provider responses: raises when no historical row exists, otherwise builds a
StockInfo with change and change-percent derived from the two most recent
closes (falling back to the previousClose info field, then to the current
price, when only one row exists). -/
def fetch_single_stock (cfg : ConfigData) (symbol : String) (d : ProviderData) :
    Except String StockInfo :=
  if d.hist.length < 1 then
    .error ("No historical data available for " ++ symbol)
  else
    let current_price := (d.hist.getLastD { close := 0, volume := 0 }).close
    let previous_close :=
      if d.hist.length ≥ 2 then
        (d.hist.getD (d.hist.length - 2) { close := 0, volume := 0 }).close
      else
        d.infoPreviousClose.getD current_price
    let change := current_price - previous_close
    let change_percent := if previous_close ≠ 0 then change / previous_close * 100 else 0
    let volume :=
      if ¬d.hist.isEmpty then (d.hist.getLastD { close := 0, volume := 0 }).volume
      else d.infoVolume.getD 0
    let company_name := (cfg.COMPANY_NAMES.lookup symbol).getD (d.infoLongName.getD symbol)
    let market_cap := d.infoMarketCap
    .ok
      { symbol := symbol
        company_name := company_name
        price := current_price
        change := change
        change_percent := change_percent
        volume := volume
        market_cap := market_cap
        previous_close := some previous_close }

/-- A view record, as built by WebStockTracker._format_stock_data_for_web for
one stock. -/
structure ViewRecord where
  symbol : String
  company_name : String
  price : ℚ
  change : ℚ
  change_percent : ℚ
  volume : Int
  volume_millions : ℚ
  is_positive : Bool
  is_negative : Bool
  market_cap : Option ℚ
deriving DecidableEq

/-- The per-stock record construction inside
WebStockTracker._format_stock_data_for_web. -/
def viewOf (stock : StockInfo) : ViewRecord :=
  { symbol := stock.symbol
    company_name := stock.company_name
    price := stock.price
    change := stock.change
    change_percent := stock.change_percent
    volume := stock.volume
    volume_millions := (stock.volume : ℚ) / 1000000
    is_positive := decide (0 < stock.change)
    is_negative := decide (stock.change < 0)
    market_cap := stock.market_cap }

/-- Embedding of WebStockTracker._format_stock_data_for_web: one view record
per snapshot entry, in snapshot (insertion) order. -/
def format_stock_data_for_web (stock_data : List (String × StockInfo)) :
    List ViewRecord :=
  stock_data.map fun p => viewOf p.2

/-- Embedding of WebStockTracker.sort_stocks.  Python sorted is a stable sort,
ascending in the comparison key; reverse=True stably reverses the comparison.
Both are rendered with the stable List.mergeSort. -/
def sort_stocks (stock_data : List (String × StockInfo)) (sort_by : String) :
    List ViewRecord :=
  if stock_data.isEmpty then []
  else
    let formatted := format_stock_data_for_web stock_data
    if sort_by = "name" then
      formatted.mergeSort fun a b => decide (a.company_name ≤ b.company_name)
    else if sort_by = "price" then
      formatted.mergeSort fun a b => decide (b.price ≤ a.price)
    else if sort_by = "change" then
      formatted.mergeSort fun a b => decide (b.change_percent ≤ a.change_percent)
    else formatted

/-- Embedding of utils.validate_config: the checks on the configuration
values, in source order, each raising ValueError. -/
def validate_config (cfg : ConfigData) : Except String Unit :=
  if cfg.SYMBOLS = [] then
    .error "SYMBOLS must be a non-empty list"
  else if cfg.REFRESH_INTERVAL < 1 then
    .error "REFRESH_INTERVAL must be a positive integer"
  else if cfg.PRECISION < 0 then
    .error "PRECISION must be a non-negative integer"
  else if cfg.VOLUME_PRECISION < 0 then
    .error "VOLUME_PRECISION must be a non-negative integer"
  else
    .ok ()

/-- The tracker state touched by start_background_refresh: the running flag
and the number of refresh-loop threads spawned so far. -/
structure TrackerState where
  running : Bool
  refreshThreads : Nat
deriving DecidableEq

/-- Embedding of WebStockTracker.__init__: validation failure propagates (the
constructor re-raises), success yields the initial tracker state. -/
def webStockTrackerInit (cfg : ConfigData) : Except String TrackerState :=
  match validate_config cfg with
  | .ok _ => .ok { running := false, refreshThreads := 0 }
  | .error e => .error e

/-- Embedding of WebStockTracker.start_background_refresh: when the running
flag is false it is set true and one new refresh thread is started; otherwise
nothing happens.  The returned Bool records whether a thread was spawned. -/
def start_background_refresh (s : TrackerState) : TrackerState × Bool :=
  if !s.running then
    ({ running := true, refreshThreads := s.refreshThreads + 1 }, true)
  else
    (s, false)

/-- Outcome of one refresh cycle as seen by the loop body of
_background_refresh_loop: the cycle either completed or raised. -/
inductive CycleOutcome
  | completed
  | raised (msg : String)
deriving DecidableEq

/-- One iteration of the try/except body of
WebStockTracker._background_refresh_loop: a completed cycle is followed by a
sleep of REFRESH_INTERVAL; a raised cycle is caught by the except branch and
followed by a sleep of 30.  The result is the sleep duration. -/
def refreshIterationSleep (cfg : ConfigData) (o : CycleOutcome) : Int :=
  match o with
  | .completed => cfg.REFRESH_INTERVAL
  | .raised _ => 30

/-- Embedding of the while-running loop of
WebStockTracker._background_refresh_loop over a finite trace of cycle
outcomes: while the running flag holds, every cycle (raising or not) is
followed by a sleep and then by the next cycle.  The result is the list of
sleep durations, one per executed cycle. -/
def backgroundRefreshLoop (cfg : ConfigData) (running : Bool) :
    List CycleOutcome → List Int
  | [] => []
  | o :: rest =>
    if running then
      refreshIterationSleep cfg o :: backgroundRefreshLoop cfg running rest
    else
      []

/-- A micro-step of a writer touching the shared snapshot reference.  The
only such step in the code is the single assignment rebinding the global
stock_data to a fully built mapping. -/
inductive WriterStep
  | publish (snap : List (String × StockInfo))

/-- The snapshot-store micro-steps of the success path of
WebStockTracker.fetch_stock_data: fetch_all_stocks builds the whole mapping
first, then exactly one assignment publishes it. -/
def fetchStockDataWriterSteps (cfg : ConfigData) (symbols : List String)
    (fetchOne : String → Except String StockInfo) : List WriterStep :=
  [WriterStep.publish (fetch_all_stocks cfg symbols fetchOne)]

/-- The snapshot referenced by the global after a list of writer steps. -/
def snapshotAfter (init : List (String × StockInfo)) :
    List WriterStep → List (String × StockInfo)
  | [] => init
  | WriterStep.publish p :: rest => snapshotAfter p rest

/-- What a reader interleaved after the first k writer micro-steps observes:
it dereferences the global once and iterates that one immutable mapping. -/
def readerView (init : List (String × StockInfo)) (steps : List WriterStep)
    (k : Nat) : List (String × StockInfo) :=
  snapshotAfter init (steps.take k)

/-- The module-level shared state of app.py that fetch_stock_data updates. -/
structure AppState where
  stock_data : List (String × StockInfo)
  last_update : Option Nat
deriving DecidableEq

/-- The structured payload returned by WebStockTracker.fetch_stock_data:
either the success dict (success true, data, last_update, successful, total)
or the failure dict (success false, error, previous last_update or null). -/
inductive FetchPayload
  | succeeded (data : List ViewRecord) (last_update : Nat) (successful total : Nat)
  | failed (error : String) (last_update : Option Nat)
deriving DecidableEq

/-- Embedding of ErrorHandler.handle_general_error: the returned user message
depends only on the context string (the exception itself goes to the log). -/
def handle_general_error (_error ctx : String) : String :=
  if ctx = "" then "An error occurred. Please try again."
  else "An error occurred in " ++ ctx ++ ". Please try again."

/-- Embedding of WebStockTracker.fetch_stock_data as a state transformer.
The awaited fetch_all_stocks call is the fallible operation (fetchResult);
on success the globals stock_data and last_update are reassigned and the
success payload is returned; on a cycle-level exception the except branch
leaves the globals untouched and returns the failure payload carrying the
previous last_update. -/
def fetch_stock_data (s : AppState) (now : Nat)
    (fetchResult : Except String (List (String × StockInfo))) :
    AppState × FetchPayload :=
  match fetchResult with
  | .ok d =>
    ({ stock_data := d, last_update := some now },
     FetchPayload.succeeded (format_stock_data_for_web d) now
       (d.countP fun p => decide (0 < p.2.price)) d.length)
  | .error e =>
    (s, FetchPayload.failed (handle_general_error e "data fetching") s.last_update)

/-! ### Concrete fixtures used for evaluating the definitions -/

/-- Provider responses with two history rows, as for a quiet trading day. -/
def histAAA : ProviderData :=
  { hist := [{ close := 148, volume := 900000 }, { close := 150, volume := 1000000 }]
    infoPreviousClose := none
    infoVolume := none
    infoLongName := none
    infoMarketCap := some 2000000000 }

/-- The quote fetch_single_stock computes from histAAA for symbol AAA. -/
def quoteAAA : StockInfo :=
  { symbol := "AAA"
    company_name := "AAA"
    price := 150
    change := 2
    change_percent := 50 / 37
    volume := 1000000
    market_cap := some 2000000000
    previous_close := some 148 }

/-- A per-symbol fetch in which every call raises. -/
def allFail : String → Except String StockInfo :=
  fun _ => Except.error "network error"

/-- An invalid configuration: empty symbol list. -/
def badConfig : ConfigData :=
  { SYMBOLS := []
    COMPANY_NAMES := []
    REFRESH_INTERVAL := 60
    PRECISION := 2
    VOLUME_PRECISION := 1 }

/-! ### Dict lemmas: keys, nodup, membership for dictInsert and the
result-processing fold of fetch_all_stocks -/

theorem any_key_iff (d : List (String × StockInfo)) (k : String) :
    (d.any fun p => decide (p.1 = k)) = true ↔ k ∈ dKeys d := by
  simp only [List.any_eq_true, decide_eq_true_eq, dKeys, List.mem_map]

theorem dKeys_map_overwrite (d : List (String × StockInfo)) (k : String) (v : StockInfo) :
    dKeys (d.map fun p => if p.1 = k then (k, v) else p) = dKeys d := by
  induction d with
  | nil => rfl
  | cons p rest ih =>
    simp only [List.map_cons, dKeys, List.map] at *
    by_cases h : p.1 = k
    · simp [h, ih]
    · simp [h, ih]

theorem dKeys_dictInsert (d : List (String × StockInfo)) (k : String) (v : StockInfo) :
    dKeys (dictInsert d k v) =
      if k ∈ dKeys d then dKeys d else dKeys d ++ [k] := by
  unfold dictInsert
  by_cases h : k ∈ dKeys d
  · rw [if_pos ((any_key_iff d k).mpr h), if_pos h]
    exact dKeys_map_overwrite d k v
  · rw [if_neg (fun hc => h ((any_key_iff d k).mp hc)), if_neg h]
    simp [dKeys]

theorem mem_dKeys_dictInsert {d : List (String × StockInfo)} {k a : String} {v : StockInfo} :
    a ∈ dKeys (dictInsert d k v) ↔ a ∈ dKeys d ∨ a = k := by
  by_cases h : k ∈ dKeys d
  · rw [dKeys_dictInsert, if_pos h]
    constructor
    · exact Or.inl
    · rintro (ha | rfl)
      · exact ha
      · exact h
  · rw [dKeys_dictInsert, if_neg h]
    simp [List.mem_append]

theorem nodup_dKeys_dictInsert {d : List (String × StockInfo)} {k : String} {v : StockInfo}
    (h : (dKeys d).Nodup) : (dKeys (dictInsert d k v)).Nodup := by
  by_cases hk : k ∈ dKeys d
  · rw [dKeys_dictInsert, if_pos hk]; exact h
  · rw [dKeys_dictInsert, if_neg hk]
    simp [List.nodup_append, h, hk]

theorem mem_dictInsert_pairs {d : List (String × StockInfo)} {k : String}
    {v : StockInfo} {p : String × StockInfo} (hp : p ∈ dictInsert d k v) :
    p ∈ d ∨ p = (k, v) := by
  unfold dictInsert at hp
  split at hp
  · obtain ⟨q, hq, hfq⟩ := List.mem_map.mp hp
    by_cases h : q.1 = k
    · right; rw [← hfq]; simp [h]
    · left; rw [← hfq]; simpa [h] using hq
  · rcases List.mem_append.mp hp with h | h
    · exact Or.inl h
    · right; simpa using h

theorem dKeys_foldl_mem (value : String → StockInfo) (symbols : List String) :
    ∀ (init : List (String × StockInfo)) (a : String),
      a ∈ dKeys (symbols.foldl (fun d s => dictInsert d s (value s)) init) ↔
        a ∈ dKeys init ∨ a ∈ symbols := by
  induction symbols with
  | nil => intro init a; simp
  | cons s rest ih =>
    intro init a
    rw [List.foldl_cons, ih]
    rw [mem_dKeys_dictInsert]
    simp only [List.mem_cons]
    tauto

theorem nodup_dKeys_foldl (value : String → StockInfo) (symbols : List String) :
    ∀ init : List (String × StockInfo), (dKeys init).Nodup →
      (dKeys (symbols.foldl (fun d s => dictInsert d s (value s)) init)).Nodup := by
  induction symbols with
  | nil => intro init h; exact h
  | cons s rest ih =>
    intro init h
    rw [List.foldl_cons]
    exact ih _ (nodup_dKeys_dictInsert h)

theorem dKeys_foldl_of_nodup (value : String → StockInfo) (symbols : List String) :
    ∀ init : List (String × StockInfo), symbols.Nodup →
      (∀ s ∈ symbols, s ∉ dKeys init) →
      dKeys (symbols.foldl (fun d s => dictInsert d s (value s)) init) =
        dKeys init ++ symbols := by
  induction symbols with
  | nil => intro init _ _; simp
  | cons s rest ih =>
    intro init hnd hdisj
    rw [List.foldl_cons]
    have hs : s ∉ dKeys init := hdisj s (List.mem_cons_self s rest)
    have hkeys : dKeys (dictInsert init s (value s)) = dKeys init ++ [s] := by
      rw [dKeys_dictInsert, if_neg hs]
    have hrest : ∀ t ∈ rest, t ∉ dKeys (dictInsert init s (value s)) := by
      intro t ht
      rw [hkeys]
      simp only [List.mem_append, List.mem_singleton]
      rintro (h | rfl)
      · exact hdisj t (List.mem_cons_of_mem s ht) h
      · exact (List.nodup_cons.mp hnd).1 ht
    rw [ih _ (List.nodup_cons.mp hnd).2 hrest, hkeys, List.append_assoc,
      List.singleton_append]

theorem mem_foldl_pairs (value : String → StockInfo) (symbols : List String) :
    ∀ (init : List (String × StockInfo)) (p : String × StockInfo),
      p ∈ symbols.foldl (fun d s => dictInsert d s (value s)) init →
      p ∈ init ∨ ∃ s ∈ symbols, p = (s, value s) := by
  induction symbols with
  | nil => intro init p hp; exact Or.inl hp
  | cons s rest ih =>
    intro init p hp
    rw [List.foldl_cons] at hp
    rcases ih _ p hp with h | ⟨t, ht, rfl⟩
    · rcases mem_dictInsert_pairs h with h | rfl
      · exact Or.inl h
      · exact Or.inr ⟨s, List.mem_cons_self s rest, rfl⟩
    · exact Or.inr ⟨t, List.mem_cons_of_mem s ht, rfl⟩

theorem fetch_all_stocks_eq_foldl (cfg : ConfigData) (symbols : List String)
    (fetchOne : String → Except String StockInfo) :
    fetch_all_stocks cfg symbols fetchOne =
      symbols.foldl (fun d s => dictInsert d s (fetchedValue cfg fetchOne s)) [] := rfl

/-! ### Claims about the Fetcher -/

/-- Claim C1: for every non-empty ordered sequence of symbols, fetch_all_stocks
returns a mapping with nodup keys whose key set equals the input symbol set,
hence exactly one entry per symbol, and the result is non-empty; the embedded
function is total, reflecting that no individual per-symbol fetch failure
raises out of fetch_all_stocks (each failure becomes a sentinel entry). -/
theorem claim_C1 (cfg : ConfigData) (symbols : List String)
    (fetchOne : String → Except String StockInfo) (hne : symbols ≠ []) :
    (dKeys (fetch_all_stocks cfg symbols fetchOne)).Nodup ∧
    (∀ a, a ∈ dKeys (fetch_all_stocks cfg symbols fetchOne) ↔ a ∈ symbols) ∧
    (∀ s ∈ symbols, (dKeys (fetch_all_stocks cfg symbols fetchOne)).count s = 1) ∧
    fetch_all_stocks cfg symbols fetchOne ≠ [] := by
  have hnd : (dKeys (fetch_all_stocks cfg symbols fetchOne)).Nodup := by
    rw [fetch_all_stocks_eq_foldl]
    exact nodup_dKeys_foldl _ symbols [] (by simp [dKeys])
  have hmem : ∀ a, a ∈ dKeys (fetch_all_stocks cfg symbols fetchOne) ↔ a ∈ symbols := by
    intro a
    rw [fetch_all_stocks_eq_foldl, dKeys_foldl_mem]
    simp [dKeys]
  refine ⟨hnd, hmem, fun s hs => List.count_eq_one_of_mem hnd ((hmem s).mpr hs),
    fun hempty => ?_⟩
  obtain ⟨s, hs⟩ := List.exists_mem_of_ne_nil symbols hne
  have h := (hmem s).mpr hs
  rw [hempty] at h
  simp [dKeys] at h

/-- Witness for C1 at the shipped symbol list with every fetch failing. -/
theorem claim_C1_witness :
    (dKeys (fetch_all_stocks appConfig appConfig.SYMBOLS allFail)).Nodup ∧
    (∀ a, a ∈ dKeys (fetch_all_stocks appConfig appConfig.SYMBOLS allFail) ↔
      a ∈ appConfig.SYMBOLS) ∧
    (∀ s ∈ appConfig.SYMBOLS,
      (dKeys (fetch_all_stocks appConfig appConfig.SYMBOLS allFail)).count s = 1) ∧
    fetch_all_stocks appConfig appConfig.SYMBOLS allFail ≠ [] :=
  claim_C1 appConfig appConfig.SYMBOLS allFail (by simp [appConfig])

/-- Claim C2: when every per-symbol call fails, fetch_all_stocks still has one
entry per input symbol, and each held quote is the sentinel of
_create_error_stock_info: price, change, change-percent and volume zero,
market cap absent. -/
theorem claim_C2 (cfg : ConfigData) (symbols : List String)
    (fetchOne : String → Except String StockInfo)
    (hfail : ∀ s ∈ symbols, ∃ e, fetchOne s = Except.error e) :
    (∀ s ∈ symbols, s ∈ dKeys (fetch_all_stocks cfg symbols fetchOne)) ∧
    (dKeys (fetch_all_stocks cfg symbols fetchOne)).Nodup ∧
    (∀ p ∈ fetch_all_stocks cfg symbols fetchOne,
      p.2 = create_error_stock_info cfg p.1 ∧ p.2.price = 0 ∧ p.2.change = 0 ∧
      p.2.change_percent = 0 ∧ p.2.volume = 0 ∧ p.2.market_cap = none) := by
  refine ⟨?_, ?_, ?_⟩
  · intro s hs
    rw [fetch_all_stocks_eq_foldl, dKeys_foldl_mem]
    exact Or.inr hs
  · rw [fetch_all_stocks_eq_foldl]
    exact nodup_dKeys_foldl _ symbols [] (by simp [dKeys])
  · intro p hp
    rw [fetch_all_stocks_eq_foldl] at hp
    rcases mem_foldl_pairs _ symbols [] p hp with h | ⟨s, hs, rfl⟩
    · simp at h
    · obtain ⟨e, he⟩ := hfail s hs
      have hv : fetchedValue cfg fetchOne s = create_error_stock_info cfg s := by
        unfold fetchedValue
        rw [he]
      simp [hv, create_error_stock_info]

/-- Witness for C2 at two symbols with every fetch failing. -/
theorem claim_C2_witness :
    (∀ s ∈ ["AAA", "BBB"], s ∈ dKeys (fetch_all_stocks appConfig ["AAA", "BBB"] allFail)) ∧
    (dKeys (fetch_all_stocks appConfig ["AAA", "BBB"] allFail)).Nodup ∧
    (∀ p ∈ fetch_all_stocks appConfig ["AAA", "BBB"] allFail,
      p.2 = create_error_stock_info appConfig p.1 ∧ p.2.price = 0 ∧ p.2.change = 0 ∧
      p.2.change_percent = 0 ∧ p.2.volume = 0 ∧ p.2.market_cap = none) :=
  claim_C2 appConfig ["AAA", "BBB"] allFail
    (fun _ _ => ⟨"network error", rfl⟩)

/-- Claim C3: every quote successfully produced by _fetch_single_stock
satisfies the Quote invariant: change equals price minus previous close, and
change-percent equals change over previous close times 100 when the previous
close is nonzero, else zero.  Equality is exact in the rational model, so the
epsilon form of the spec follows. -/
theorem claim_C3 (cfg : ConfigData) (symbol : String) (d : ProviderData)
    (q : StockInfo) (h : fetch_single_stock cfg symbol d = Except.ok q) :
    ∃ pc, q.previous_close = some pc ∧ q.change = q.price - pc ∧
      (pc ≠ 0 → q.change_percent = q.change / pc * 100) ∧
      (pc = 0 → q.change_percent = 0) := by
  unfold fetch_single_stock at h
  split at h
  · simp at h
  · rw [Except.ok.injEq] at h
    subst h
    refine ⟨_, rfl, rfl, fun hne => ?_, fun h0 => ?_⟩
    · dsimp only
      rw [if_pos hne]
    · dsimp only
      rw [if_neg (not_not_intro h0)]

/-- Witness for C3 at a concrete two-row history. -/
theorem claim_C3_witness :
    ∃ pc, quoteAAA.previous_close = some pc ∧ quoteAAA.change = quoteAAA.price - pc ∧
      (pc ≠ 0 → quoteAAA.change_percent = quoteAAA.change / pc * 100) ∧
      (pc = 0 → quoteAAA.change_percent = 0) :=
  claim_C3 appConfig "AAA" histAAA quoteAAA (by
    simp [fetch_single_stock, histAAA, quoteAAA, appConfig, List.getLastD, List.getD]
    norm_num
    decide)

/-! ### Presenter lemmas -/

/-- Stable mergeSort with a comparator ascending in a key is sorted
ascending in that key. -/
theorem sorted_mergeSort_key_asc {β : Type} [LinearOrder β] (key : ViewRecord → β)
    (l : List ViewRecord) :
    (l.mergeSort fun a b => decide (key a ≤ key b)).Pairwise
      fun a b => key a ≤ key b := by
  have htrans : ∀ a b c : ViewRecord,
      decide (key a ≤ key b) = true → decide (key b ≤ key c) = true →
        decide (key a ≤ key c) = true :=
    fun _ _ _ hab hbc =>
      decide_eq_true (le_trans (of_decide_eq_true hab) (of_decide_eq_true hbc))
  have htotal : ∀ a b : ViewRecord,
      (decide (key a ≤ key b) || decide (key b ≤ key a)) = true := fun a b => by
    simpa [Bool.or_eq_true, decide_eq_true_eq] using le_total (key a) (key b)
  exact (List.sorted_mergeSort htrans htotal l).imp fun hab => of_decide_eq_true hab

/-- Stable mergeSort with a comparator descending in a key is sorted
descending in that key (the reverse=True form of Python sorted). -/
theorem sorted_mergeSort_key_desc {β : Type} [LinearOrder β] (key : ViewRecord → β)
    (l : List ViewRecord) :
    (l.mergeSort fun a b => decide (key b ≤ key a)).Pairwise
      fun a b => key b ≤ key a := by
  have htrans : ∀ a b c : ViewRecord,
      decide (key b ≤ key a) = true → decide (key c ≤ key b) = true →
        decide (key c ≤ key a) = true :=
    fun _ _ _ hab hbc =>
      decide_eq_true (le_trans (of_decide_eq_true hbc) (of_decide_eq_true hab))
  have htotal : ∀ a b : ViewRecord,
      (decide (key b ≤ key a) || decide (key a ≤ key b)) = true := fun a b => by
    simpa [Bool.or_eq_true, decide_eq_true_eq] using le_total (key b) (key a)
  exact (List.sorted_mergeSort htrans htotal l).imp fun hab => of_decide_eq_true hab

theorem sort_stocks_name_eq (d : List (String × StockInfo)) (h : ¬d.isEmpty = true) :
    sort_stocks d "name" = (format_stock_data_for_web d).mergeSort
      fun a b => decide (a.company_name ≤ b.company_name) := by
  unfold sort_stocks
  rw [if_neg h]
  dsimp only
  rw [if_pos rfl]

theorem sort_stocks_price_eq (d : List (String × StockInfo)) (h : ¬d.isEmpty = true) :
    sort_stocks d "price" = (format_stock_data_for_web d).mergeSort
      fun a b => decide (b.price ≤ a.price) := by
  unfold sort_stocks
  rw [if_neg h]
  dsimp only
  rw [if_neg (by decide), if_pos rfl]

theorem sort_stocks_change_eq (d : List (String × StockInfo)) (h : ¬d.isEmpty = true) :
    sort_stocks d "change" = (format_stock_data_for_web d).mergeSort
      fun a b => decide (b.change_percent ≤ a.change_percent) := by
  unfold sort_stocks
  rw [if_neg h]
  dsimp only
  rw [if_neg (by decide), if_neg (by decide), if_pos rfl]

theorem sort_stocks_other_eq (d : List (String × StockInfo)) (h : ¬d.isEmpty = true)
    {k : String} (h1 : k ≠ "name") (h2 : k ≠ "price") (h3 : k ≠ "change") :
    sort_stocks d k = format_stock_data_for_web d := by
  unfold sort_stocks
  rw [if_neg h]
  dsimp only
  rw [if_neg h1, if_neg h2, if_neg h3]

/-- Every record produced by sort_stocks comes from the formatted snapshot. -/
theorem mem_sort_stocks {d : List (String × StockInfo)} {k : String} {r : ViewRecord}
    (hr : r ∈ sort_stocks d k) : r ∈ format_stock_data_for_web d := by
  unfold sort_stocks at hr
  split at hr
  · simp at hr
  · dsimp only at hr
    split at hr
    · exact List.mem_mergeSort.mp hr
    · split at hr
      · exact List.mem_mergeSort.mp hr
      · split at hr
        · exact List.mem_mergeSort.mp hr
        · exact hr

/-! ### Claims about the Presenter -/

/-- Claim C4: sort_stocks with key price is non-increasing in price, with key
change non-increasing in change-percent, with key name non-decreasing in the
company name under the ordinal String order and stable (any two records with
equal names keep their snapshot order); any other key returns the formatted
records unchanged in snapshot insertion order, and the snapshot produced by
fetch_all_stocks over the configured symbol list lists keys in exactly the
configured order. -/
theorem claim_C4 (d : List (String × StockInfo)) (k : String) :
    ((sort_stocks d "price").Pairwise fun a b => b.price ≤ a.price) ∧
    ((sort_stocks d "change").Pairwise fun a b => b.change_percent ≤ a.change_percent) ∧
    ((sort_stocks d "name").Pairwise fun a b => a.company_name ≤ b.company_name) ∧
    (∀ a b : ViewRecord, a.company_name = b.company_name →
      List.Sublist [a, b] (format_stock_data_for_web d) →
      List.Sublist [a, b] (sort_stocks d "name")) ∧
    (k ≠ "name" → k ≠ "price" → k ≠ "change" →
      sort_stocks d k = format_stock_data_for_web d) ∧
    (∀ fetchOne, dKeys (fetch_all_stocks appConfig appConfig.SYMBOLS fetchOne) =
      appConfig.SYMBOLS) := by
  by_cases hd : d.isEmpty = true
  · have hnil : d = [] := by simpa using hd
    subst hnil
    refine ⟨List.Pairwise.nil, List.Pairwise.nil, List.Pairwise.nil, ?_, ?_, ?_⟩
    · intro a b _ hsub
      simp [format_stock_data_for_web] at hsub
    · intro _ _ _
      rfl
    · intro fetchOne
      rw [fetch_all_stocks_eq_foldl,
        dKeys_foldl_of_nodup _ _ [] (by decide) (by simp [dKeys])]
      simp [dKeys]
  · refine ⟨?_, ?_, ?_, ?_, ?_, ?_⟩
    · rw [sort_stocks_price_eq d hd]
      exact sorted_mergeSort_key_desc (fun r => r.price) _
    · rw [sort_stocks_change_eq d hd]
      exact sorted_mergeSort_key_desc (fun r => r.change_percent) _
    · rw [sort_stocks_name_eq d hd]
      exact sorted_mergeSort_key_asc (fun r => r.company_name) _
    · intro a b heq hsub
      rw [sort_stocks_name_eq d hd]
      exact List.pair_sublist_mergeSort
        (fun a b c hab hbc =>
          decide_eq_true (le_trans (of_decide_eq_true hab) (of_decide_eq_true hbc)))
        (fun a b => by
          simpa [Bool.or_eq_true, decide_eq_true_eq]
            using le_total a.company_name b.company_name)
        (decide_eq_true (le_of_eq heq)) hsub
    · exact sort_stocks_other_eq d hd
    · intro fetchOne
      rw [fetch_all_stocks_eq_foldl,
        dKeys_foldl_of_nodup _ _ [] (by decide) (by simp [dKeys])]
      simp [dKeys]

/-- Witness for C4: the unrecognized key volume returns the snapshot order,
and two equal-name records keep their order under the name sort. -/
theorem claim_C4_witness :
    sort_stocks [("AAA", quoteAAA), ("BBB", quoteAAA)] "volume" =
      format_stock_data_for_web [("AAA", quoteAAA), ("BBB", quoteAAA)] ∧
    List.Sublist [viewOf quoteAAA, viewOf quoteAAA]
      (sort_stocks [("AAA", quoteAAA), ("BBB", quoteAAA)] "name") := by
  refine ⟨(claim_C4 [("AAA", quoteAAA), ("BBB", quoteAAA)] "volume").2.2.2.2.1
    (by decide) (by decide) (by decide), ?_⟩
  exact (claim_C4 [("AAA", quoteAAA), ("BBB", quoteAAA)] "volume").2.2.2.1
    (viewOf quoteAAA) (viewOf quoteAAA) rfl (by
      simp [format_stock_data_for_web])

/-- Claim C5: with an empty snapshot sort_stocks returns the empty sequence
for every sort key, and every returned view record carries the derived
fields: volume in millions, is-positive exactly when change is positive,
is-negative exactly when change is negative. -/
theorem claim_C5 (k : String) :
    sort_stocks [] k = [] ∧
    ∀ (d : List (String × StockInfo)) (r : ViewRecord), r ∈ sort_stocks d k →
      r.volume_millions = (r.volume : ℚ) / 1000000 ∧
      (r.is_positive = true ↔ 0 < r.change) ∧
      (r.is_negative = true ↔ r.change < 0) := by
  refine ⟨rfl, ?_⟩
  intro d r hr
  obtain ⟨p, _, rfl⟩ := List.mem_map.mp (mem_sort_stocks hr)
  refine ⟨rfl, ?_, ?_⟩ <;> simp [viewOf]

/-- Witness for C5 at a singleton snapshot sorted by name. -/
theorem claim_C5_witness :
    sort_stocks [] "name" = [] ∧
    (viewOf quoteAAA).volume_millions = ((viewOf quoteAAA).volume : ℚ) / 1000000 ∧
    ((viewOf quoteAAA).is_positive = true ↔ 0 < (viewOf quoteAAA).change) ∧
    ((viewOf quoteAAA).is_negative = true ↔ (viewOf quoteAAA).change < 0) :=
  ⟨(claim_C5 "name").1,
   (claim_C5 "name").2 [("AAA", quoteAAA)] (viewOf quoteAAA) (by
     simp [sort_stocks, format_stock_data_for_web])⟩

/-! ### Claims about the Refresh Scheduler, configuration and shared state -/

/-- Claim C6: over any finite trace of cycle outcomes with the running flag
held, the refresh loop gives every cycle exactly one sleep and then runs the
next cycle — a raised cycle is caught and never ends the loop — where the
sleep after a raised cycle is the fixed fallback 30 and the sleep after a
completed cycle is the configured refresh interval, and 30 is shorter than
the configured interval. -/
theorem claim_C6 (outcomes : List CycleOutcome) :
    List.Forall₂
      (fun (o : CycleOutcome) (slp : Int) =>
        (o = CycleOutcome.completed → slp = appConfig.REFRESH_INTERVAL) ∧
        (∀ m, o = CycleOutcome.raised m → slp = 30))
      outcomes (backgroundRefreshLoop appConfig true outcomes) ∧
    (30 : Int) < appConfig.REFRESH_INTERVAL := by
  refine ⟨?_, by decide⟩
  induction outcomes with
  | nil => exact List.Forall₂.nil
  | cons o rest ih =>
    show List.Forall₂ _ (o :: rest)
      (if true = true then
        refreshIterationSleep appConfig o :: backgroundRefreshLoop appConfig true rest
       else [])
    rw [if_pos rfl]
    refine List.Forall₂.cons ⟨?_, ?_⟩ ih
    · rintro rfl
      rfl
    · rintro m rfl
      rfl

/-- Witness for C6 on a trace in which the first cycle raises and the second
completes. -/
theorem claim_C6_witness :
    List.Forall₂
      (fun (o : CycleOutcome) (slp : Int) =>
        (o = CycleOutcome.completed → slp = appConfig.REFRESH_INTERVAL) ∧
        (∀ m, o = CycleOutcome.raised m → slp = 30))
      [CycleOutcome.raised "boom", CycleOutcome.completed]
      (backgroundRefreshLoop appConfig true
        [CycleOutcome.raised "boom", CycleOutcome.completed]) ∧
    (30 : Int) < appConfig.REFRESH_INTERVAL :=
  claim_C6 [CycleOutcome.raised "boom", CycleOutcome.completed]

/-- Claim C7: validate_config raises exactly when the configuration is
invalid — an empty symbol list, a refresh interval below one, or a negative
precision each produce an error, a configuration passing all the checks
validates — and the tracker constructor propagates a validation error, so
the process does not begin serving on an invalid configuration. -/
theorem claim_C7 (cfg : ConfigData) :
    (cfg.SYMBOLS = [] → ∃ e, validate_config cfg = Except.error e) ∧
    (cfg.REFRESH_INTERVAL < 1 → ∃ e, validate_config cfg = Except.error e) ∧
    (cfg.PRECISION < 0 → ∃ e, validate_config cfg = Except.error e) ∧
    (cfg.VOLUME_PRECISION < 0 → ∃ e, validate_config cfg = Except.error e) ∧
    (validate_config cfg = Except.ok () ↔
      (cfg.SYMBOLS ≠ [] ∧ 1 ≤ cfg.REFRESH_INTERVAL ∧ 0 ≤ cfg.PRECISION ∧
        0 ≤ cfg.VOLUME_PRECISION)) ∧
    (∀ e, webStockTrackerInit cfg = Except.error e ↔
      validate_config cfg = Except.error e) := by
  unfold webStockTrackerInit validate_config
  split_ifs with h1 h2 h3 h4 <;> simp_all

/-- Witness for C7: the empty symbol list is rejected and the shipped
configuration passes. -/
theorem claim_C7_witness :
    (∃ e, validate_config badConfig = Except.error e) ∧
    validate_config appConfig = Except.ok () :=
  ⟨(claim_C7 badConfig).1 rfl, (claim_C7 appConfig).2.2.2.2.1.mpr (by decide)⟩

/-- Claim C8: starting the background refresh is idempotent: after any state,
the running flag holds, a second call spawns nothing and changes nothing, a
thread is spawned exactly when the flag was false, and two consecutive calls
spawn at most one thread in total. -/
theorem claim_C8 (s : TrackerState) :
    (start_background_refresh s).1.running = true ∧
    ((start_background_refresh s).2 = true ↔ s.running = false) ∧
    ((start_background_refresh s).2 = true →
      s.running = false ∧ (start_background_refresh s).1.running = true) ∧
    start_background_refresh (start_background_refresh s).1 =
      ((start_background_refresh s).1, false) ∧
    (start_background_refresh s).1.refreshThreads ≤ s.refreshThreads + 1 ∧
    (start_background_refresh (start_background_refresh s).1).1.refreshThreads ≤
      s.refreshThreads + 1 := by
  rcases s with ⟨running, threads⟩
  cases running <;> simp [start_background_refresh]

/-- Witness for C8 from the freshly constructed tracker state. -/
theorem claim_C8_witness :
    (start_background_refresh ⟨false, 0⟩).1.running = true ∧
    ((start_background_refresh ⟨false, 0⟩).2 = true ↔
      TrackerState.running ⟨false, 0⟩ = false) ∧
    ((start_background_refresh ⟨false, 0⟩).2 = true →
      TrackerState.running ⟨false, 0⟩ = false ∧
        (start_background_refresh ⟨false, 0⟩).1.running = true) ∧
    start_background_refresh (start_background_refresh ⟨false, 0⟩).1 =
      ((start_background_refresh ⟨false, 0⟩).1, false) ∧
    (start_background_refresh ⟨false, 0⟩).1.refreshThreads ≤
      TrackerState.refreshThreads ⟨false, 0⟩ + 1 ∧
    (start_background_refresh (start_background_refresh ⟨false, 0⟩).1).1.refreshThreads ≤
      TrackerState.refreshThreads ⟨false, 0⟩ + 1 :=
  claim_C8 ⟨false, 0⟩

/-- Claim C9: the refresh writer touches the shared snapshot in exactly one
publish step carrying the complete mapping built by fetch_all_stocks, so a
reader interleaved at any point observes either the entirely-old or the
entirely-new snapshot — whatever holds of every old quote or of every new
quote holds uniformly of everything the reader sees, never a mix of two
cycles. -/
theorem claim_C9 (cfg : ConfigData) (symbols : List String)
    (fetchOne : String → Except String StockInfo)
    (init : List (String × StockInfo)) (k : Nat)
    (Pold Pnew : String × StockInfo → Prop)
    (hOld : ∀ p ∈ init, Pold p)
    (hNew : ∀ p ∈ fetch_all_stocks cfg symbols fetchOne, Pnew p) :
    (readerView init (fetchStockDataWriterSteps cfg symbols fetchOne) k = init ∨
      readerView init (fetchStockDataWriterSteps cfg symbols fetchOne) k =
        fetch_all_stocks cfg symbols fetchOne) ∧
    ((∀ p ∈ readerView init (fetchStockDataWriterSteps cfg symbols fetchOne) k, Pold p) ∨
      (∀ p ∈ readerView init (fetchStockDataWriterSteps cfg symbols fetchOne) k, Pnew p)) := by
  have hview : readerView init (fetchStockDataWriterSteps cfg symbols fetchOne) k = init ∨
      readerView init (fetchStockDataWriterSteps cfg symbols fetchOne) k =
        fetch_all_stocks cfg symbols fetchOne := by
    cases k with
    | zero => exact Or.inl rfl
    | succ n =>
      right
      unfold readerView fetchStockDataWriterSteps
      rw [List.take_succ_cons, List.take_nil]
      rfl
  refine ⟨hview, ?_⟩
  rcases hview with h | h
  · left
    rw [h]
    exact hOld
  · right
    rw [h]
    exact hNew

/-- Witness for C9: a reader arriving after the publish step sees only
entries of the new cycle. -/
theorem claim_C9_witness :
    (readerView [("OLD", quoteAAA)] (fetchStockDataWriterSteps appConfig ["ZZZ"] allFail) 1 =
        [("OLD", quoteAAA)] ∨
      readerView [("OLD", quoteAAA)] (fetchStockDataWriterSteps appConfig ["ZZZ"] allFail) 1 =
        fetch_all_stocks appConfig ["ZZZ"] allFail) ∧
    ((∀ p ∈ readerView [("OLD", quoteAAA)]
        (fetchStockDataWriterSteps appConfig ["ZZZ"] allFail) 1, p.1 = "OLD") ∨
      (∀ p ∈ readerView [("OLD", quoteAAA)]
        (fetchStockDataWriterSteps appConfig ["ZZZ"] allFail) 1, p.2.symbol = p.1)) :=
  claim_C9 appConfig ["ZZZ"] allFail [("OLD", quoteAAA)] 1
    (fun p => p.1 = "OLD") (fun p => p.2.symbol = p.1)
    (by decide) (by decide)

/-- Claim C10: a cycle-level failure of fetch_stock_data leaves the shared
state exactly as it was and returns the structured failure payload carrying
the previous last-update value; the shared state is reassigned only on the
success path, after fetch_all_stocks has returned the new mapping. -/
theorem claim_C10 (s : AppState) (now : Nat)
    (fetchResult : Except String (List (String × StockInfo))) :
    (∀ e, fetchResult = Except.error e →
      (fetch_stock_data s now fetchResult).1 = s ∧
      (fetch_stock_data s now fetchResult).2 =
        FetchPayload.failed (handle_general_error e "data fetching") s.last_update) ∧
    (∀ d, fetchResult = Except.ok d →
      (fetch_stock_data s now fetchResult).1 =
        { stock_data := d, last_update := some now } ∧
      (fetch_stock_data s now fetchResult).2 =
        FetchPayload.succeeded (format_stock_data_for_web d) now
          (d.countP fun p => decide (0 < p.2.price)) d.length) := by
  constructor
  · rintro e rfl
    exact ⟨rfl, rfl⟩
  · rintro d rfl
    exact ⟨rfl, rfl⟩

/-- Witness for C10: a raising cycle leaves the empty initial state
untouched and reports the failure payload with a null last update. -/
theorem claim_C10_witness :
    (fetch_stock_data ⟨[], none⟩ 5 (Except.error "boom")).1 = ⟨[], none⟩ ∧
    (fetch_stock_data ⟨[], none⟩ 5 (Except.error "boom")).2 =
      FetchPayload.failed (handle_general_error "boom" "data fetching") none :=
  (claim_C10 ⟨[], none⟩ 5 (Except.error "boom")).1 "boom" rfl

end StockTracker
